import Mathlib

/-!
Verification of the Products CRUD service (`src/main.py`).

Shallow embedding of the core of the service: the identifier codec
(`validate_object_id` over bson `ObjectId`), the document serializer
(`serialize_doc`), the validated `Product` model, and the request handlers
(`get_product`, `create_product`, `update_product`, `delete_product`)
acting on an explicit collection state (`List Doc`).

Modelling conventions:
* The store's native identifier (`bson.ObjectId`) is a 12-byte value with a
  canonical 24-character lowercase-hex string rendering; we model it as a
  natural number carried by `ObjectId`, with hex encode/decode functions.
* Python floats are modelled by `ℚ` (the prices the service compares and
  stores; only order and equality of prices matter to the handlers).
* The MongoDB collection is a `List Doc` in natural (insertion) order;
  `find_one` is `List.find?`, `insert_one` appends, `find_one_and_update`
  (with `return_document=True`) and `delete_one` act on the first match.
* `HTTPException(status_code, detail)` is `Err.http status detail`; an
  unhandled exception inside a handler (e.g. a pydantic `ValidationError`
  raised while re-validating a stored document) is `Err.serverError`.
-/

namespace MVPAPI

/-- A hexadecimal digit character: `0`-`9`, `a`-`f`, or `A`-`F`. -/
def isHexChar (c : Char) : Bool :=
  (48 ≤ c.toNat && c.toNat ≤ 57) ||
  (97 ≤ c.toNat && c.toNat ≤ 102) ||
  (65 ≤ c.toNat && c.toNat ≤ 70)

/-- Numeric value of a hex digit character (0 on non-hex input). -/
def hexCharVal (c : Char) : Nat :=
  if 48 ≤ c.toNat ∧ c.toNat ≤ 57 then c.toNat - 48
  else if 97 ≤ c.toNat ∧ c.toNat ≤ 102 then c.toNat - 87
  else if 65 ≤ c.toNat ∧ c.toNat ≤ 70 then c.toNat - 55
  else 0

/-- Big-endian hex decoding of a character list. -/
def hexDecode (cs : List Char) : Nat :=
  cs.foldl (fun a c => 16 * a + hexCharVal c) 0

/-- Lowercase hex digit character for a value `d < 16`. -/
def toHexChar (d : Nat) : Char :=
  if d < 10 then Char.ofNat (48 + d) else Char.ofNat (87 + d)

/-- Big-endian lowercase hex rendering of `n` using exactly `k` digits. -/
def hexEncode : Nat → Nat → List Char
  | 0, _ => []
  | k + 1, n => hexEncode k (n / 16) ++ [toHexChar (n % 16)]

/-- The store's native identifier: a 12-byte value, modelled by the natural
number it denotes (`val < 16 ^ 24` for identifiers generated by the store). -/
structure ObjectId where
  val : Nat
deriving DecidableEq, Repr

/-- Modelled from bson `ObjectId.is_valid` as the spec states its contract:
a string is a valid identifier encoding iff it is 24 characters long and
every character is a hex digit. -/
def ObjectId.is_valid (s : String) : Bool :=
  s.length == 24 && s.data.all isHexChar

/-- Decoding `bson.ObjectId(s)` on a valid 24-hex-character string. -/
def ObjectId.ofString (s : String) : ObjectId :=
  ⟨hexDecode s.data⟩

/-- Encoding `str(oid)`: the canonical 24-character lowercase-hex rendering. -/
def ObjectId.str (o : ObjectId) : String :=
  ⟨hexEncode 24 o.val⟩

/-- Errors a handler can finish with: `HTTPException(status, detail)`, or an
unhandled in-handler exception surfacing as a 5xx server error. -/
inductive Err where
  | http (status : Nat) (detail : String)
  | serverError
deriving DecidableEq, Repr

/-- Error pydantic `ValidationError` raised by `Product` model construction. -/
inductive ValidationError where
  | mk
deriving DecidableEq, Repr

/-- An ASCII alphabetic character, as matched by the regex class `[a-zA-Z]`. -/
def isAlphaChar (c : Char) : Bool :=
  (65 ≤ c.toNat && c.toNat ≤ 90) || (97 ≤ c.toNat && c.toNat ≤ 122)

/-- The `name` field constraints of the `Product` model: `min_length=1` and
the whole string matches `^[a-zA-Z]+$`. -/
def validProductName (s : String) : Bool :=
  1 ≤ s.length && s.data.all isAlphaChar

/-- The `Product` pydantic model (`id` aliased `_id`, optional, default
`None`; `name`; `price`). A value of this type is a constructed model
instance; validated construction is `Product.make`. -/
structure Product where
  id : Option String
  name : String
  price : ℚ
deriving DecidableEq, Repr

/-- Validated construction of a `Product`: pydantic checks `name` against
`min_length=1` and pattern `^[a-zA-Z]+$`, and `price` against `gt=0`;
any violation raises `ValidationError`. -/
def Product.make (id? : Option String) (name : String) (price : ℚ) :
    Except ValidationError Product :=
  if validProductName name ∧ 0 < price then .ok ⟨id?, name, price⟩
  else .error .mk

/-- A stored document of the collection: native `_id` plus the product
fields (spec §3, Stored Document). -/
structure Doc where
  _id : ObjectId
  name : String
  price : ℚ
deriving DecidableEq, Repr

/-- A serialized document: the `_id` field coerced to its string form,
other fields as stored. -/
structure SerializedDoc where
  _id : String
  name : String
  price : ℚ
deriving DecidableEq, Repr

/-- Function `serialize_doc`: shallow-copies the document and replaces `_id` by
`str(doc["_id"])`. The input is a value, so it is untouched. -/
def serialize_doc (doc : Doc) : SerializedDoc :=
  ⟨doc._id.str, doc.name, doc.price⟩

/-- Function `validate_object_id`: raises `HTTPException(400, "Invalid ObjectId")`
when `ObjectId.is_valid` rejects the string, otherwise returns the decoded
native identifier. -/
def validate_object_id (product_id : String) : Except Err ObjectId :=
  if ObjectId.is_valid product_id then .ok (ObjectId.ofString product_id)
  else .error (.http 400 "Invalid ObjectId")

/-- Reconstruction `Product(**serialize_doc(doc))`: handlers re-construct the response
model from a serialized document, which re-runs pydantic validation. -/
def productFromSerialized (sd : SerializedDoc) : Except ValidationError Product :=
  Product.make (some sd._id) sd.name sd.price

instance {ε α : Type} [DecidableEq ε] [DecidableEq α] : DecidableEq (Except ε α) := fun
  | .ok a, .ok b =>
    if h : a = b then .isTrue (by rw [h]) else .isFalse (by intro hh; cases hh; exact h rfl)
  | .error a, .error b =>
    if h : a = b then .isTrue (by rw [h]) else .isFalse (by intro hh; cases hh; exact h rfl)
  | .ok _, .error _ => .isFalse (by intro hh; cases hh)
  | .error _, .ok _ => .isFalse (by intro hh; cases hh)

/-- Handler `GET /products/{product_id}` (`get_product`): validates the identifier,
then queries the store with `find_one({"_id": oid})`; returns the serialized
product if found, else `HTTPException(404, "Product not found")`. The second
component counts the store queries the handler performed (0 when the
identifier is rejected before the store is consulted). -/
def get_product (product_id : String) (coll : List Doc) :
    Except Err Product × Nat :=
  match validate_object_id product_id with
  | .error e => (.error e, 0)
  | .ok oid =>
    match coll.find? (fun d => d._id == oid) with
    | some product =>
      match productFromSerialized (serialize_doc product) with
      | .ok p => (.ok p, 1)
      | .error _ => (.error .serverError, 1)
    | none => (.error (.http 404 "Product not found"), 1)

/-- Handler `POST /products` (`create_product`): dumps the payload without the id
fields, checks name uniqueness with `find_one({"name": ...})` and fails with
`HTTPException(400, "Product already exists")` on a hit; otherwise inserts
the document (the store assigns the fresh identifier `newId`), re-reads it
by `find_one({"_id": inserted_id})` and returns it serialized. Returns the
handler outcome together with the post-request collection state. -/
def create_product (product : Product) (newId : ObjectId) (coll : List Doc) :
    Except Err Product × List Doc :=
  let product_data := (product.name, product.price)
  match coll.find? (fun d => d.name == product.name) with
  | some _ => (.error (.http 400 "Product already exists"), coll)
  | none =>
    let coll2 := coll ++ [⟨newId, product_data.1, product_data.2⟩]
    match coll2.find? (fun d => d._id == newId) with
    | some new_product =>
      match productFromSerialized (serialize_doc new_product) with
      | .ok p => (.ok p, coll2)
      | .error _ => (.error .serverError, coll2)
    | none => (.error .serverError, coll2)

/-- MongoDB `find_one_and_update(filter, set, return_document=True)`
on an `_id` filter: replaces the `name`/`price` fields of the first matching
document and returns the post-update document, leaving all other documents
in place. -/
def find_one_and_update :
    List Doc → ObjectId → String → ℚ → Option Doc × List Doc
  | [], _, _, _ => (none, [])
  | d :: ds, oid, n, pr =>
    if d._id == oid then (some ⟨d._id, n, pr⟩, ⟨d._id, n, pr⟩ :: ds)
    else
      let r := find_one_and_update ds oid n pr
      (r.1, d :: r.2)

/-- Handler `PUT /products/{product_id}` (`update_product`): dumps the payload
without id fields, validates the identifier, then performs the atomic
find-and-set returning the post-update document; serializes it if found,
else `HTTPException(404, "Product not found")`. -/
def update_product (update_model : Product) (product_id : String)
    (coll : List Doc) : Except Err Product × List Doc :=
  let product_data := (update_model.name, update_model.price)
  match validate_object_id product_id with
  | .error e => (.error e, coll)
  | .ok oid =>
    let r := find_one_and_update coll oid product_data.1 product_data.2
    match r.1 with
    | some product =>
      match productFromSerialized (serialize_doc product) with
      | .ok p => (.ok p, r.2)
      | .error _ => (.error .serverError, r.2)
    | none => (.error (.http 404 "Product not found"), r.2)

/-- MongoDB `delete_one({"_id": oid})`: removes the first matching document;
returns the `deleted_count` (0 or 1) and the remaining collection. -/
def delete_one : List Doc → ObjectId → Nat × List Doc
  | [], _ => (0, [])
  | d :: ds, oid =>
    if d._id == oid then (1, ds)
    else
      let r := delete_one ds oid
      (r.1, d :: r.2)

/-- Handler `DELETE /products/{product_id}` (`delete_product`): validates the
identifier, deletes the matching document; returns the confirmation message
when `deleted_count == 1`, else `HTTPException(404, "Product not found")`. -/
def delete_product (product_id : String) (coll : List Doc) :
    Except Err String × List Doc :=
  match validate_object_id product_id with
  | .error e => (.error e, coll)
  | .ok oid =>
    let r := delete_one coll oid
    if r.1 == 1 then (.ok "Product successfully deleted", r.2)
    else (.error (.http 404 "Product not found"), r.2)

/-- A payload that passed the `Product` model validation (every request body
FastAPI hands to a handler satisfies this). -/
def Product.Valid (p : Product) : Prop :=
  validProductName p.name = true ∧ 0 < p.price

/-- The data-model invariant on one stored document (spec §3). -/
def DocValid (d : Doc) : Prop :=
  validProductName d.name = true ∧ 0 < d.price

/-- The data-model invariant on the whole collection. -/
def CollValid (coll : List Doc) : Prop :=
  ∀ d ∈ coll, DocValid d

/-- Collections reachable from `c0` by any sequence of handler operations
(create, update, delete), each invoked with a payload that passed model
validation (FastAPI rejects invalid bodies before the handler runs). -/
inductive Reachable (c0 : List Doc) : List Doc → Prop where
  | refl : Reachable c0 c0
  | create {c c2 : List Doc} {p : Product} {nid : ObjectId}
      {q : Except Err Product} : Reachable c0 c → p.Valid →
      create_product p nid c = (q, c2) → Reachable c0 c2
  | update {c c2 : List Doc} {m : Product} {pid : String}
      {q : Except Err Product} : Reachable c0 c → m.Valid →
      update_product m pid c = (q, c2) → Reachable c0 c2
  | delete {c c2 : List Doc} {pid : String} {q : Except Err String} :
      Reachable c0 c → delete_product pid c = (q, c2) → Reachable c0 c2

/-! ## Codec lemmas -/

theorem length_hexEncode (k n : Nat) : (hexEncode k n).length = k := by
  induction k generalizing n with
  | zero => rfl
  | succ k ih => simp [hexEncode, ih]

theorem hexVal_toHexChar : ∀ d : Nat, d < 16 → hexCharVal (toHexChar d) = d := by
  decide

theorem isHexChar_toHexChar : ∀ d : Nat, d < 16 → isHexChar (toHexChar d) = true := by
  decide

theorem mem_hexEncode_isHex (k n : Nat) :
    ∀ c ∈ hexEncode k n, isHexChar c = true := by
  induction k generalizing n with
  | zero => intro c hc; cases hc
  | succ k ih =>
    intro c hc
    simp only [hexEncode, List.mem_append, List.mem_singleton] at hc
    rcases hc with hc | hc
    · exact ih _ c hc
    · subst hc; exact isHexChar_toHexChar _ (Nat.mod_lt _ (by omega))

theorem hexDecode_hexEncode (k n : Nat) (h : n < 16 ^ k) :
    hexDecode (hexEncode k n) = n := by
  induction k generalizing n with
  | zero => simp at h; simp [h, hexEncode, hexDecode]
  | succ k ih =>
    have hdiv : n / 16 < 16 ^ k := by
      rw [Nat.div_lt_iff_lt_mul (by omega)]
      calc n < 16 ^ (k + 1) := h
        _ = 16 ^ k * 16 := by rw [Nat.pow_succ]
    have hrec := ih (n / 16) hdiv
    simp only [hexEncode, hexDecode, List.foldl_append, List.foldl_cons,
      List.foldl_nil]
    simp only [hexDecode] at hrec
    rw [hrec, hexVal_toHexChar _ (Nat.mod_lt _ (by omega))]
    omega

theorem is_valid_str (o : ObjectId) : ObjectId.is_valid o.str = true := by
  simp only [ObjectId.is_valid, ObjectId.str, Bool.and_eq_true, beq_iff_eq,
    List.all_eq_true]
  exact ⟨length_hexEncode 24 o.val, mem_hexEncode_isHex 24 o.val⟩

theorem ofString_str (o : ObjectId) (h : o.val < 16 ^ 24) :
    ObjectId.ofString o.str = o := by
  have hdata : ((⟨hexEncode 24 o.val⟩ : String)).data = hexEncode 24 o.val := rfl
  rw [ObjectId.ofString, ObjectId.str, hdata, hexDecode_hexEncode 24 o.val h]

/-! ## Store-operation lemmas -/

theorem productFromSerialized_ok (d : Doc) (h : DocValid d) :
    productFromSerialized (serialize_doc d) = .ok ⟨some d._id.str, d.name, d.price⟩ := by
  simp only [productFromSerialized, serialize_doc, Product.make]
  rw [if_pos ⟨h.1, h.2⟩]

theorem find_one_and_update_fst (coll : List Doc) (oid : ObjectId) (n : String)
    (pr : ℚ) : (find_one_and_update coll oid n pr).1 =
      (coll.find? (fun x => x._id == oid)).map (fun d => ⟨d._id, n, pr⟩) := by
  induction coll with
  | nil => rfl
  | cons d ds ih =>
    by_cases h : d._id = oid
    · simp [find_one_and_update, List.find?_cons, h]
    · simp only [find_one_and_update, List.find?_cons]
      rw [if_neg (by simp [h]), beq_eq_false_iff_ne.mpr h]
      exact ih

theorem find_one_and_update_none (coll : List Doc) (oid : ObjectId) (n : String)
    (pr : ℚ) (h : ∀ d ∈ coll, d._id ≠ oid) :
    find_one_and_update coll oid n pr = (none, coll) := by
  induction coll with
  | nil => rfl
  | cons d ds ih =>
    simp only [find_one_and_update]
    rw [if_neg (by simp [h d (List.mem_cons_self d ds)])]
    rw [ih (fun x hx => h x (List.mem_cons_of_mem d hx))]

theorem find_one_and_update_found (l1 l2 : List Doc) (d : Doc) (oid : ObjectId)
    (n : String) (pr : ℚ) (h1 : ∀ x ∈ l1, x._id ≠ oid) (hd : d._id = oid) :
    find_one_and_update (l1 ++ d :: l2) oid n pr =
      (some ⟨d._id, n, pr⟩, l1 ++ ⟨d._id, n, pr⟩ :: l2) := by
  induction l1 with
  | nil =>
    simp only [List.nil_append, find_one_and_update]
    rw [if_pos (by simp [hd])]
  | cons a l1 ih =>
    simp only [List.cons_append, find_one_and_update]
    rw [if_neg (by simp [h1 a (List.mem_cons_self a l1)])]
    simp only [List.append_eq]
    rw [ih (fun x hx => h1 x (List.mem_cons_of_mem a hx))]

theorem find_one_and_update_mem (coll : List Doc) (oid : ObjectId) (n : String)
    (pr : ℚ) : ∀ x ∈ (find_one_and_update coll oid n pr).2,
      x ∈ coll ∨ (x.name = n ∧ x.price = pr) := by
  induction coll with
  | nil => intro x hx; cases hx
  | cons d ds ih =>
    intro x hx
    simp only [find_one_and_update] at hx
    split at hx
    · simp only [List.mem_cons] at hx
      rcases hx with hx | hx
      · right; rw [hx]; exact ⟨rfl, rfl⟩
      · left; exact List.mem_cons_of_mem d hx
    · simp only [List.mem_cons] at hx
      rcases hx with hx | hx
      · left; rw [hx]; exact List.mem_cons_self d ds
      · rcases ih x hx with h | h
        · left; exact List.mem_cons_of_mem d h
        · right; exact h

theorem delete_one_none (coll : List Doc) (oid : ObjectId)
    (h : ∀ d ∈ coll, d._id ≠ oid) : delete_one coll oid = (0, coll) := by
  induction coll with
  | nil => rfl
  | cons d ds ih =>
    simp only [delete_one]
    rw [if_neg (by simp [h d (List.mem_cons_self d ds)])]
    rw [ih (fun x hx => h x (List.mem_cons_of_mem d hx))]

theorem delete_one_found (l1 l2 : List Doc) (d : Doc) (oid : ObjectId)
    (h1 : ∀ x ∈ l1, x._id ≠ oid) (hd : d._id = oid) :
    delete_one (l1 ++ d :: l2) oid = (1, l1 ++ l2) := by
  induction l1 with
  | nil =>
    simp only [List.nil_append, delete_one]
    rw [if_pos (by simp [hd])]
  | cons a l1 ih =>
    simp only [List.cons_append, delete_one]
    rw [if_neg (by simp [h1 a (List.mem_cons_self a l1)])]
    simp only [List.append_eq]
    rw [ih (fun x hx => h1 x (List.mem_cons_of_mem a hx))]

theorem delete_one_mem (coll : List Doc) (oid : ObjectId) :
    ∀ x ∈ (delete_one coll oid).2, x ∈ coll := by
  induction coll with
  | nil => intro x hx; cases hx
  | cons d ds ih =>
    intro x hx
    simp only [delete_one] at hx
    split at hx
    · exact List.mem_cons_of_mem d hx
    · simp only [List.mem_cons] at hx
      rcases hx with hx | hx
      · rw [hx]; exact List.mem_cons_self d ds
      · exact List.mem_cons_of_mem d (ih x hx)

theorem create_product_success (p : Product) (nid : ObjectId) (coll : List Doc)
    (hp : p.Valid) (hname : ∀ d ∈ coll, d.name ≠ p.name)
    (hid : ∀ d ∈ coll, d._id ≠ nid) :
    create_product p nid coll =
      (.ok ⟨some nid.str, p.name, p.price⟩, coll ++ [⟨nid, p.name, p.price⟩]) := by
  have hfind : coll.find? (fun d => d.name == p.name) = none :=
    List.find?_eq_none.mpr (fun x hx => by simp [hname x hx])
  have hfind2 : (coll ++ [(⟨nid, p.name, p.price⟩ : Doc)]).find?
      (fun d => d._id == nid) = some ⟨nid, p.name, p.price⟩ := by
    rw [List.find?_append,
      List.find?_eq_none.mpr (fun x hx => by simp [hid x hx])]
    simp [List.find?_cons]
  have hser : productFromSerialized (serialize_doc ⟨nid, p.name, p.price⟩) =
      .ok ⟨some nid.str, p.name, p.price⟩ :=
    productFromSerialized_ok ⟨nid, p.name, p.price⟩ ⟨hp.1, hp.2⟩
  simp [create_product, hfind, hfind2, hser]

/-! ## Claim theorems -/

/-- C1: `Product` construction succeeds exactly when the name is one or
more alphabetic characters only and the price is strictly positive; it
fails with `ValidationError` otherwise. In particular `"Milk"`/`99.99`
succeeds, and `"   "`, `"Milk123"`, price `0` and negative prices fail. -/
theorem product_construction_characterization :
    (∀ (i : Option String) (name : String) (price : ℚ),
      (Product.make i name price = .ok ⟨i, name, price⟩ ↔
        (name ≠ "" ∧ (∀ c ∈ name.data, isAlphaChar c = true) ∧ 0 < price))
      ∧ (¬(name ≠ "" ∧ (∀ c ∈ name.data, isAlphaChar c = true) ∧ 0 < price) →
          Product.make i name price = .error .mk))
    ∧ Product.make none "Milk" 99.99 = .ok ⟨none, "Milk", 99.99⟩
    ∧ Product.make none "   " 99.99 = .error .mk
    ∧ Product.make none "Milk123" 99.99 = .error .mk
    ∧ Product.make none "Milk" 0 = .error .mk
    ∧ (∀ (i : Option String) (name : String) (price : ℚ), price ≤ 0 →
        Product.make i name price = .error .mk) := by
  have hval : ∀ name : String, validProductName name = true ↔
      (name ≠ "" ∧ ∀ c ∈ name.data, isAlphaChar c = true) := by
    intro name
    simp only [validProductName, Bool.and_eq_true, List.all_eq_true,
      decide_eq_true_eq, String.length]
    constructor
    · rintro ⟨h1, h2⟩
      refine ⟨?_, h2⟩
      intro hemp
      subst hemp
      simp at h1
    · rintro ⟨h1, h2⟩
      refine ⟨?_, h2⟩
      have : name.data ≠ [] := by
        intro hd
        exact h1 (by cases name; simp_all)
      have := List.length_pos.mpr this
      omega
  have hmain : ∀ (i : Option String) (name : String) (price : ℚ),
      (Product.make i name price = .ok ⟨i, name, price⟩ ↔
        (name ≠ "" ∧ (∀ c ∈ name.data, isAlphaChar c = true) ∧ 0 < price))
      ∧ (¬(name ≠ "" ∧ (∀ c ∈ name.data, isAlphaChar c = true) ∧ 0 < price) →
          Product.make i name price = .error .mk) := by
    intro i name price
    constructor
    · constructor
      · intro hok
        by_contra hcond
        simp only [Product.make] at hok
        split at hok
        · rename_i hc
          exact hcond ⟨((hval name).mp hc.1).1, ((hval name).mp hc.1).2, hc.2⟩
        · cases hok
      · rintro ⟨h1, h2, h3⟩
        simp only [Product.make]
        rw [if_pos ⟨(hval name).mpr ⟨h1, h2⟩, h3⟩]
    · intro hcond
      simp only [Product.make]
      rw [if_neg]
      rintro ⟨hc1, hc2⟩
      exact hcond ⟨((hval name).mp hc1).1, ((hval name).mp hc1).2, hc2⟩
  have h99 : (0 : ℚ) < 99.99 := by norm_num
  refine ⟨hmain, ?_, ?_, ?_, ?_, ?_⟩
  · exact (hmain none "Milk" 99.99).1.mpr ⟨by decide, by decide, h99⟩
  · exact (hmain none "   " 99.99).2 (by
      rintro ⟨-, hall, -⟩
      exact absurd (hall ' ' (by decide)) (by decide))
  · exact (hmain none "Milk123" 99.99).2 (by
      rintro ⟨-, hall, -⟩
      exact absurd (hall '1' (by decide)) (by decide))
  · exact (hmain none "Milk" 0).2 (by
      rintro ⟨-, -, hpos⟩
      exact absurd hpos (by norm_num))
  · intro i name price hle
    exact (hmain i name price).2 (by
      rintro ⟨-, -, hpos⟩
      exact absurd hpos (not_lt.mpr hle))

/-- Witness for C1: instantiating the characterization at concrete inputs —
the all-alphabetic name `"Tea"` with positive price `3` is accepted, and
the negative price `-3` is rejected via the price-nonpositivity clause. -/
theorem product_construction_characterization_witness :
    Product.make none "Tea" 3 = .ok ⟨none, "Tea", 3⟩
    ∧ Product.make none "Bread" (-3) = .error .mk :=
  ⟨(product_construction_characterization.1 none "Tea" 3).1.mpr
      ⟨by decide, by decide, by decide⟩,
   product_construction_characterization.2.2.2.2.2 none "Bread" (-3)
      (by norm_num)⟩

/-- C2: Identifier validation succeeds (returning the decoded native
identifier) exactly on strings of length 24 made of hex digits; every other
string fails with `HTTPException(400, "Invalid ObjectId")`. -/
theorem validate_object_id_characterization (s : String) :
    ((s.length = 24 ∧ ∀ c ∈ s.data, isHexChar c = true) →
      validate_object_id s = .ok (ObjectId.ofString s))
    ∧ (¬(s.length = 24 ∧ ∀ c ∈ s.data, isHexChar c = true) →
      validate_object_id s = .error (.http 400 "Invalid ObjectId")) := by
  have hchar : ObjectId.is_valid s = true ↔
      (s.length = 24 ∧ ∀ c ∈ s.data, isHexChar c = true) := by
    simp [ObjectId.is_valid, List.all_eq_true]
  constructor
  · intro h
    simp only [validate_object_id]
    rw [if_pos (hchar.mpr h)]
  · intro h
    simp only [validate_object_id]
    rw [if_neg (fun hv => h (hchar.mp hv))]

/-- Witness for C2: the tests' concrete identifiers — the 24-hex-digit
string `"5f9d1b3b9c9d6e1d9c9d6e1d"` validates, `"invalid"` is rejected. -/
theorem validate_object_id_characterization_witness :
    validate_object_id "5f9d1b3b9c9d6e1d9c9d6e1d" =
      .ok (ObjectId.ofString "5f9d1b3b9c9d6e1d9c9d6e1d")
    ∧ validate_object_id "invalid" = .error (.http 400 "Invalid ObjectId") :=
  ⟨(validate_object_id_characterization "5f9d1b3b9c9d6e1d9c9d6e1d").1
      (by constructor <;> decide),
   (validate_object_id_characterization "invalid").2 (by decide)⟩

/-- C3: When some document in the collection already has the payload's
name, `create_product` fails with `HTTPException(400, "Product already
exists")` and leaves the collection (hence its document count) unchanged. -/
theorem create_product_conflict (p : Product) (nid : ObjectId)
    (coll : List Doc) (h : ∃ d ∈ coll, d.name = p.name) :
    create_product p nid coll =
      (.error (.http 400 "Product already exists"), coll) := by
  obtain ⟨d, hd, hname⟩ := h
  have hsome : (coll.find? (fun x => x.name == p.name)).isSome :=
    List.find?_isSome.mpr ⟨d, hd, by simp [hname]⟩
  obtain ⟨w, hw⟩ := Option.isSome_iff_exists.mp hsome
  simp [create_product, hw]

/-- Witness for C3: creating `"Milk"` against a collection that already
holds a document named `"Milk"` is rejected and the collection is kept. -/
theorem create_product_conflict_witness :
    create_product ⟨none, "Milk", 2⟩ ⟨5⟩ [⟨⟨1⟩, "Milk", 3⟩] =
      (.error (.http 400 "Product already exists"), [⟨⟨1⟩, "Milk", 3⟩]) :=
  create_product_conflict ⟨none, "Milk", 2⟩ ⟨5⟩ [⟨⟨1⟩, "Milk", 3⟩]
    ⟨⟨⟨1⟩, "Milk", 3⟩, by decide, rfl⟩

/-- C5: `get_product` on a malformed id fails with `InvalidIdentifier`
and performs no store query (query count 0); on a well-formed id it queries
the store once and either returns the matching document serialized as a
`Product`, or fails with `HTTPException(404, "Product not found")` when no
document matches. -/
theorem get_product_spec (pid : String) (coll : List Doc)
    (hv : CollValid coll) :
    (ObjectId.is_valid pid = false →
      get_product pid coll = (.error (.http 400 "Invalid ObjectId"), 0))
    ∧ (ObjectId.is_valid pid = true →
      (∀ d, coll.find? (fun x => x._id == ObjectId.ofString pid) = some d →
        get_product pid coll = (.ok ⟨some d._id.str, d.name, d.price⟩, 1))
      ∧ (coll.find? (fun x => x._id == ObjectId.ofString pid) = none →
        get_product pid coll = (.error (.http 404 "Product not found"), 1))) := by
  constructor
  · intro hbad
    simp [get_product, validate_object_id, hbad]
  · intro hok
    constructor
    · intro d hd
      have hmem : d ∈ coll := List.mem_of_find?_eq_some hd
      have hser := productFromSerialized_ok d (hv d hmem)
      simp [get_product, validate_object_id, hok, hd, hser]
    · intro hnone
      simp [get_product, validate_object_id, hok, hnone]

/-- Witness for C5: on the one-document collection `[⟨5, "Milk", 2⟩]`,
`"invalid"` is rejected with no store query; the well-formed rendering of
id 5 returns the serialized document; the well-formed rendering of the
absent id 6 yields the 404. -/
theorem get_product_spec_witness :
    get_product "invalid" [⟨⟨5⟩, "Milk", 2⟩] =
      (.error (.http 400 "Invalid ObjectId"), 0)
    ∧ get_product "000000000000000000000005" [⟨⟨5⟩, "Milk", 2⟩] =
      (.ok ⟨some (ObjectId.str ⟨5⟩), "Milk", 2⟩, 1)
    ∧ get_product "000000000000000000000006" [⟨⟨5⟩, "Milk", 2⟩] =
      (.error (.http 404 "Product not found"), 1) :=
  have hcv : CollValid [⟨⟨5⟩, "Milk", 2⟩] := by
    intro d hd
    simp only [List.mem_singleton] at hd
    subst hd
    exact ⟨by decide, by decide⟩
  ⟨(get_product_spec "invalid" [⟨⟨5⟩, "Milk", 2⟩] hcv).1 (by decide),
   ((get_product_spec "000000000000000000000005" [⟨⟨5⟩, "Milk", 2⟩]
      hcv).2 (by decide)).1 ⟨⟨5⟩, "Milk", 2⟩ (by decide),
   ((get_product_spec "000000000000000000000006" [⟨⟨5⟩, "Milk", 2⟩]
      hcv).2 (by decide)).2 (by decide)⟩

theorem create_product_state (p : Product) (nid : ObjectId) (coll : List Doc) :
    (create_product p nid coll).2 = coll ∨
    (create_product p nid coll).2 = coll ++ [⟨nid, p.name, p.price⟩] := by
  cases hf : coll.find? (fun d => d.name == p.name) with
  | some w => left; simp [create_product, hf]
  | none =>
    right
    cases hf2 : (coll ++ [(⟨nid, p.name, p.price⟩ : Doc)]).find?
        (fun d => d._id == nid) with
    | some w =>
      cases hser : productFromSerialized (serialize_doc w) with
      | ok q => simp [create_product, hf, hf2, hser]
      | error e => simp [create_product, hf, hf2, hser]
    | none => simp [create_product, hf, hf2]

theorem create_product_preserves (p : Product) (nid : ObjectId)
    (coll : List Doc) (hp : p.Valid) (hc : CollValid coll) :
    CollValid (create_product p nid coll).2 := by
  rcases create_product_state p nid coll with h | h <;> rw [h]
  · exact hc
  · intro d hd
    rcases List.mem_append.mp hd with h1 | h1
    · exact hc d h1
    · simp only [List.mem_singleton] at h1
      subst h1
      exact ⟨hp.1, hp.2⟩

theorem update_product_state (m : Product) (pid : String) (coll : List Doc) :
    ∀ x ∈ (update_product m pid coll).2,
      x ∈ coll ∨ (x.name = m.name ∧ x.price = m.price) := by
  intro x hx
  simp only [update_product] at hx
  split at hx
  · exact Or.inl hx
  · rename_i oid hoid
    split at hx
    · split at hx
      · exact find_one_and_update_mem coll oid m.name m.price x hx
      · exact find_one_and_update_mem coll oid m.name m.price x hx
    · exact find_one_and_update_mem coll oid m.name m.price x hx

theorem update_product_preserves (m : Product) (pid : String)
    (coll : List Doc) (hm : m.Valid) (hc : CollValid coll) :
    CollValid (update_product m pid coll).2 := by
  intro x hx
  rcases update_product_state m pid coll x hx with h | h
  · exact hc x h
  · exact ⟨by rw [h.1]; exact hm.1, by rw [h.2]; exact hm.2⟩

theorem delete_product_state (pid : String) (coll : List Doc) :
    ∀ x ∈ (delete_product pid coll).2, x ∈ coll := by
  intro x hx
  simp only [delete_product] at hx
  split at hx
  · exact hx
  · rename_i oid hoid
    split at hx
    · exact delete_one_mem coll oid x hx
    · exact delete_one_mem coll oid x hx

theorem delete_product_preserves (pid : String) (coll : List Doc)
    (hc : CollValid coll) : CollValid (delete_product pid coll).2 :=
  fun x hx => hc x (delete_product_state pid coll x hx)

/-- C4: Every collection reachable from an invariant-satisfying one by
any sequence of handler operations (create, update, delete, each with a
payload that passed model validation) contains only documents whose name is
one or more alphabetic characters and whose price is strictly positive: no
operation ever persists an invalid name or a non-positive price. -/
theorem reachable_collection_valid (c0 c : List Doc) (h0 : CollValid c0)
    (h : Reachable c0 c) : CollValid c := by
  induction h with
  | refl => exact h0
  | create hr hp hc ih =>
    rename_i c1 c2 p nid q
    have hpres := create_product_preserves p nid c1 hp ih
    rw [hc] at hpres
    exact hpres
  | update hr hm hc ih =>
    rename_i c1 c2 m pid q
    have hpres := update_product_preserves m pid c1 hm ih
    rw [hc] at hpres
    exact hpres
  | delete hr hc ih =>
    rename_i c1 c2 pid q
    have hpres := delete_product_preserves pid c1 ih
    rw [hc] at hpres
    exact hpres

/-- Witness for C4: starting from the empty collection, one create step
with the validated payload `"Milk"`/`2` reaches a collection that satisfies
the invariant. -/
theorem reachable_collection_valid_witness :
    CollValid [(⟨⟨5⟩, "Milk", 2⟩ : Doc)] := by
  have hstep : create_product ⟨none, "Milk", 2⟩ ⟨5⟩ [] =
      (.ok ⟨some "000000000000000000000005", "Milk", 2⟩,
        [⟨⟨5⟩, "Milk", 2⟩]) := by decide
  exact reachable_collection_valid [] _ (by intro d hd; cases hd)
    (Reachable.create Reachable.refl ⟨by decide, by decide⟩ hstep)

/-- C6: On a valid payload and well-formed identifier, `update_product`
sets the matching document's `name`/`price` to the payload values and
returns the post-update document (no uniqueness check of the new name
against other documents is made — the success case holds for every
collection, including ones already containing the new name); when no
document matches, it fails with `HTTPException(404, "Product not found")`. -/
theorem update_product_spec (m : Product) (pid : String) (coll : List Doc)
    (hm : m.Valid) (hpid : ObjectId.is_valid pid = true) :
    (∀ d, coll.find? (fun x => x._id == ObjectId.ofString pid) = some d →
      (update_product m pid coll).1 = .ok ⟨some d._id.str, m.name, m.price⟩)
    ∧ ((∀ d ∈ coll, d._id ≠ ObjectId.ofString pid) →
      update_product m pid coll =
        (.error (.http 404 "Product not found"), coll)) := by
  have hvo : validate_object_id pid = .ok (ObjectId.ofString pid) := by
    simp [validate_object_id, hpid]
  constructor
  · intro d hd
    have hfst :=
      find_one_and_update_fst coll (ObjectId.ofString pid) m.name m.price
    rw [hd] at hfst
    have hser := productFromSerialized_ok ⟨d._id, m.name, m.price⟩ ⟨hm.1, hm.2⟩
    simp [update_product, hvo, hfst, hser]
  · intro hnone
    have h :=
      find_one_and_update_none coll (ObjectId.ofString pid) m.name m.price hnone
    simp [update_product, hvo, h]

/-- Witness for C6: updating id 5 to name `"Milk"` succeeds even though a
different document (id 1) is already named `"Milk"` — no uniqueness check —
and updating the absent id 7 yields the 404 with the collection kept. -/
theorem update_product_spec_witness :
    (update_product ⟨none, "Milk", 7⟩ "000000000000000000000005"
        [⟨⟨1⟩, "Milk", 3⟩, ⟨⟨5⟩, "Tea", 2⟩]).1 =
      .ok ⟨some (ObjectId.str ⟨5⟩), "Milk", 7⟩
    ∧ update_product ⟨none, "Milk", 7⟩ "000000000000000000000007"
        [⟨⟨1⟩, "Milk", 3⟩, ⟨⟨5⟩, "Tea", 2⟩] =
      (.error (.http 404 "Product not found"),
        [⟨⟨1⟩, "Milk", 3⟩, ⟨⟨5⟩, "Tea", 2⟩]) :=
  ⟨(update_product_spec ⟨none, "Milk", 7⟩ "000000000000000000000005"
      [⟨⟨1⟩, "Milk", 3⟩, ⟨⟨5⟩, "Tea", 2⟩] ⟨by decide, by decide⟩
      (by decide)).1 ⟨⟨5⟩, "Tea", 2⟩ (by decide),
   (update_product_spec ⟨none, "Milk", 7⟩ "000000000000000000000007"
      [⟨⟨1⟩, "Milk", 3⟩, ⟨⟨5⟩, "Tea", 2⟩] ⟨by decide, by decide⟩
      (by decide)).2 (by decide)⟩

/-- C10: Frame property of `update_product`: only the (first) document
matching the identifier has its `name`/`price` fields replaced; its `_id`
is unchanged and every other document of the collection is untouched. -/
theorem update_product_frame (m : Product) (pid : String) (l1 l2 : List Doc)
    (d : Doc) (hm : m.Valid) (hpid : ObjectId.is_valid pid = true)
    (hfirst : ∀ x ∈ l1, x._id ≠ ObjectId.ofString pid)
    (hd : d._id = ObjectId.ofString pid) :
    update_product m pid (l1 ++ d :: l2) =
      (.ok ⟨some d._id.str, m.name, m.price⟩,
        l1 ++ ⟨d._id, m.name, m.price⟩ :: l2) := by
  have hvo : validate_object_id pid = .ok (ObjectId.ofString pid) := by
    simp [validate_object_id, hpid]
  have hf := find_one_and_update_found l1 l2 d (ObjectId.ofString pid)
    m.name m.price hfirst hd
  have hser := productFromSerialized_ok ⟨d._id, m.name, m.price⟩ ⟨hm.1, hm.2⟩
  simp [update_product, hvo, hf, hser]

/-- Witness for C10: updating id 5 in a three-document collection replaces
only the middle document's fields, keeps its identifier, and leaves the
documents before and after it unchanged. -/
theorem update_product_frame_witness :
    update_product ⟨none, "Juice", 7⟩ "000000000000000000000005"
        [⟨⟨1⟩, "Tea", 3⟩, ⟨⟨5⟩, "Milk", 2⟩, ⟨⟨9⟩, "Bread", 4⟩] =
      (.ok ⟨some (ObjectId.str ⟨5⟩), "Juice", 7⟩,
        [⟨⟨1⟩, "Tea", 3⟩, ⟨⟨5⟩, "Juice", 7⟩, ⟨⟨9⟩, "Bread", 4⟩]) :=
  update_product_frame ⟨none, "Juice", 7⟩ "000000000000000000000005"
    [⟨⟨1⟩, "Tea", 3⟩] [⟨⟨9⟩, "Bread", 4⟩] ⟨⟨5⟩, "Milk", 2⟩
    ⟨by decide, by decide⟩ (by decide) (by decide) (by decide)

/-- C7: On a well-formed identifier, `delete_product` deletes the
single matching document and returns the confirmation message; when no
document matches it fails with `HTTPException(404, "Product not found")`
leaving the collection unchanged; consequently a second delete of the same
identifier returns the 404. -/
theorem delete_product_spec (pid : String) (coll : List Doc)
    (hpid : ObjectId.is_valid pid = true) :
    (∀ l1 d l2, coll = l1 ++ d :: l2 →
      (∀ x ∈ l1, x._id ≠ ObjectId.ofString pid) →
      (∀ x ∈ l2, x._id ≠ ObjectId.ofString pid) →
      d._id = ObjectId.ofString pid →
      delete_product pid coll = (.ok "Product successfully deleted", l1 ++ l2)
        ∧ (delete_product pid (l1 ++ l2)).1 =
            .error (.http 404 "Product not found"))
    ∧ ((∀ d ∈ coll, d._id ≠ ObjectId.ofString pid) →
      delete_product pid coll =
        (.error (.http 404 "Product not found"), coll)) := by
  have hvo : validate_object_id pid = .ok (ObjectId.ofString pid) := by
    simp [validate_object_id, hpid]
  constructor
  · intro l1 d l2 hcoll h1 h2 hd
    subst hcoll
    have hdel := delete_one_found l1 l2 d (ObjectId.ofString pid) h1 hd
    have hnone : ∀ x ∈ l1 ++ l2, x._id ≠ ObjectId.ofString pid := by
      intro x hx
      rcases List.mem_append.mp hx with h | h
      · exact h1 x h
      · exact h2 x h
    have hdel2 := delete_one_none (l1 ++ l2) (ObjectId.ofString pid) hnone
    constructor
    · simp [delete_product, hvo, hdel]
    · simp [delete_product, hvo, hdel2]
  · intro hnone
    have hdel := delete_one_none coll (ObjectId.ofString pid) hnone
    simp [delete_product, hvo, hdel]

/-- Witness for C7: deleting id 5 from `[⟨5, "Milk", 2⟩]` succeeds once and
404s on the second call; deleting the absent id 6 404s with the collection
kept. -/
theorem delete_product_spec_witness :
    (delete_product "000000000000000000000005" [⟨⟨5⟩, "Milk", 2⟩] =
        (.ok "Product successfully deleted", [])
      ∧ (delete_product "000000000000000000000005" ([] : List Doc)).1 =
          .error (.http 404 "Product not found"))
    ∧ delete_product "000000000000000000000006" [⟨⟨5⟩, "Milk", 2⟩] =
        (.error (.http 404 "Product not found"), [⟨⟨5⟩, "Milk", 2⟩]) :=
  ⟨(delete_product_spec "000000000000000000000005" [⟨⟨5⟩, "Milk", 2⟩]
      (by decide)).1 [] ⟨⟨5⟩, "Milk", 2⟩ [] rfl (by decide) (by decide)
      (by decide),
   (delete_product_spec "000000000000000000000006" [⟨⟨5⟩, "Milk", 2⟩]
      (by decide)).2 (by decide)⟩

/-- C8: Round-trip: creating a valid product whose name is not yet in
the collection (with a fresh store-assigned identifier) succeeds, and
getting it by the identifier returned by create yields a product whose
name and price equal the payload's and whose identifier equals the one
returned by create. -/
theorem create_then_get_roundtrip (p : Product) (nid : ObjectId)
    (coll : List Doc) (hp : p.Valid) (hname : ∀ d ∈ coll, d.name ≠ p.name)
    (hid : ∀ d ∈ coll, d._id ≠ nid) (hb : nid.val < 16 ^ 24) :
    (create_product p nid coll).1 = .ok ⟨some nid.str, p.name, p.price⟩
    ∧ (get_product nid.str (create_product p nid coll).2).1 =
        .ok ⟨some nid.str, p.name, p.price⟩ := by
  have hcreate := create_product_success p nid coll hp hname hid
  constructor
  · rw [hcreate]
  · rw [hcreate]
    have hvo : validate_object_id nid.str = .ok (ObjectId.ofString nid.str) := by
      simp [validate_object_id, is_valid_str]
    rw [ofString_str nid hb] at hvo
    have hfind : (coll ++ [(⟨nid, p.name, p.price⟩ : Doc)]).find?
        (fun d => d._id == nid) = some ⟨nid, p.name, p.price⟩ := by
      rw [List.find?_append,
        List.find?_eq_none.mpr (fun x hx => by simp [hid x hx])]
      simp [List.find?_cons]
    have hser := productFromSerialized_ok ⟨nid, p.name, p.price⟩ ⟨hp.1, hp.2⟩
    simp [get_product, hvo, hfind, hser]

/-- Witness for C8: creating `"Milk"`/`2` with fresh id 5 in a collection
holding one other product, then getting id 5 back, returns the created
product with matching fields and identifier. -/
theorem create_then_get_roundtrip_witness :
    (create_product ⟨none, "Milk", 2⟩ ⟨5⟩ [⟨⟨1⟩, "Tea", 3⟩]).1 =
      .ok ⟨some (ObjectId.str ⟨5⟩), "Milk", 2⟩
    ∧ (get_product (ObjectId.str ⟨5⟩)
        (create_product ⟨none, "Milk", 2⟩ ⟨5⟩ [⟨⟨1⟩, "Tea", 3⟩]).2).1 =
      .ok ⟨some (ObjectId.str ⟨5⟩), "Milk", 2⟩ :=
  create_then_get_roundtrip ⟨none, "Milk", 2⟩ ⟨5⟩ [⟨⟨1⟩, "Tea", 3⟩]
    ⟨by decide, by decide⟩ (by decide) (by decide) (by decide)

/-- C9: `serialize_doc` returns a copy whose `_id` is the string
encoding of the input's native identifier and whose other fields equal the
input's; being a pure function of its argument, it leaves the input
document unmodified. -/
theorem serialize_doc_spec (d : Doc) :
    (serialize_doc d)._id = d._id.str
    ∧ (serialize_doc d).name = d.name
    ∧ (serialize_doc d).price = d.price :=
  ⟨rfl, rfl, rfl⟩

end MVPAPI
